import Mathlib

/-!
Verification of the `comparador` price-comparison backend.

Shallow embedding of the relevant parts of
`backend/app/crud/crud_scrape_job.py`, `backend/app/crud/crud_price.py`,
`backend/app/services/search_service.py`,
`backend/app/scrapers/base_scraper.py` and
`backend/app/api/v1/endpoints/search.py`.

Timestamps are modelled as integers (seconds); the SQLAlchemy session plus
database is modelled as an explicit list of records; committing is modelled by
an `Except` value so that a unique-constraint violation surfaces as an error.
-/

namespace Comparador

/-! ## Job registry (`crud_scrape_job.py`, `db_models.ScrapeJobDB`) -/

/-- Status values stored in `ScrapeJobDB.status`. -/
inductive JobStatus
  | pending
  | running
  | completed
  | failed
  deriving DecidableEq, Repr

/-- A row of the `scrape_jobs` table (`ScrapeJobDB`). -/
structure JobRecord where
  job_id : Nat
  query_term : String
  status : JobStatus
  started_at : Option Int := none
  completed_at : Option Int := none
  error_message : Option String := none
  deriving DecidableEq, Repr

/-- `CRUDScrapeJob.mark_as_running` restricted to one record: transitions only
from PENDING, setting `started_at`; from any other state returns the record
unchanged. -/
def markRunningRec (now : Int) (j : JobRecord) : JobRecord :=
  if j.status = .pending then
    { j with status := .running, started_at := some now }
  else j

/-- `CRUDScrapeJob.mark_as_completed` restricted to one record: transitions
only from RUNNING, setting `completed_at`. -/
def markCompletedRec (now : Int) (j : JobRecord) : JobRecord :=
  if j.status = .running then
    { j with status := .completed, completed_at := some now }
  else j

/-- `CRUDScrapeJob.mark_as_failed` restricted to one record: transitions only
from RUNNING, setting `completed_at` and `error_message`. -/
def markFailedRec (now : Int) (msg : String) (j : JobRecord) : JobRecord :=
  if j.status = .running then
    { j with status := .failed, completed_at := some now, error_message := some msg }
  else j

/-- Registry-level `mark_as_running`: `get` the row by primary key and update
it (primary keys are unique, so updating every matching row is the same). -/
def markAsRunning (now : Int) (jobs : List JobRecord) (id : Nat) : List JobRecord :=
  jobs.map fun j => if j.job_id = id then markRunningRec now j else j

/-- Registry-level `mark_as_completed`. -/
def markAsCompleted (now : Int) (jobs : List JobRecord) (id : Nat) : List JobRecord :=
  jobs.map fun j => if j.job_id = id then markCompletedRec now j else j

/-- Registry-level `mark_as_failed`. -/
def markAsFailed (now : Int) (msg : String) (jobs : List JobRecord) (id : Nat) : List JobRecord :=
  jobs.map fun j => if j.job_id = id then markFailedRec now msg j else j

/-- A job counts as active when its status is PENDING or RUNNING
(the filter in `get_pending_for_query`). -/
def isActive (j : JobRecord) : Bool :=
  j.status = .pending || j.status = .running

/-- `CRUDScrapeJob.get_pending_for_query`: first row whose `query_term`
matches and whose status is in {PENDING, RUNNING}. -/
def get_pending_for_query (jobs : List JobRecord) (q : String) : Option JobRecord :=
  jobs.find? fun j => j.query_term = q && isActive j

/-- Number of active jobs for a query term. -/
def countActive (jobs : List JobRecord) (q : String) : Nat :=
  (jobs.filter fun j => j.query_term = q && isActive j).length

/-- The coordinator's duplicate-suppression branch in `search_products`
(lines 85-110): once it has decided to refresh, it looks for an existing
PENDING/RUNNING job for the query; if one exists it answers with that job's
id and creates nothing, otherwise it creates a fresh PENDING job. Returns
the `job_id` put in the response together with the new registry. -/
def coordinatorStep (jobs : List JobRecord) (q : String) (nextId : Nat) :
    Option Nat × List JobRecord :=
  match get_pending_for_query jobs q with
  | some j => (some j.job_id, jobs)
  | none =>
      (some nextId,
        jobs ++ [{ job_id := nextId, query_term := q, status := .pending }])

/-- Serialized operations on the job registry: coordinator refresh decisions
and the background transitions. -/
inductive SysOp
  | search (q : String) (nextId : Nat)
  | runJob (id : Nat) (now : Int)
  | completeJob (id : Nat) (now : Int)
  | failJob (id : Nat) (now : Int) (msg : String)

/-- Apply one serialized operation to the registry. -/
def applyOp (jobs : List JobRecord) : SysOp → List JobRecord
  | .search q nextId => (coordinatorStep jobs q nextId).2
  | .runJob id now => markAsRunning now jobs id
  | .completeJob id now => markAsCompleted now jobs id
  | .failJob id now msg => markAsFailed now msg jobs id

/-! ## Price store (`crud_price.py`, `db_models.PriceDB`) -/

/-- A row of the `prices` table (`PriceDB`). `product_url` carries a UNIQUE
constraint; `attributes` is an opaque JSON blob. -/
structure PriceRecord where
  price_id : Nat
  product_query_term : String
  source_id : Nat
  source_product_name : String
  price : ℚ
  currency : String
  product_url : String
  scraped_at : Int
  attributes : Option String := none
  deriving DecidableEq, Repr

/-- The `PriceCreate` schema: input to the upsert (no `price_id`, no
`scraped_at` — the DB fills those in). -/
structure PriceCreate where
  product_query_term : String
  source_id : Nat
  source_product_name : String
  price : ℚ
  currency : String
  product_url : String
  attributes : Option String := none
  deriving DecidableEq, Repr

/-- The update half of the upsert: only `price`, `attributes`,
`source_product_name` and `scraped_at` are written; `source_id`,
`product_query_term`, `currency`, `product_url` and the primary key are left
alone (`create_or_update` / the update branch of `create_multi`). -/
def updateFromCreate (now : Int) (o : PriceCreate) (r : PriceRecord) : PriceRecord :=
  { r with
    price := o.price
    attributes := o.attributes
    source_product_name := o.source_product_name
    scraped_at := now }

/-- A freshly inserted row (the insert branch of `create_multi`):
`scraped_at` comes from the column's `server_default` now(). -/
def freshRecord (now : Int) (id : Nat) (o : PriceCreate) : PriceRecord :=
  { price_id := id
    product_query_term := o.product_query_term
    source_id := o.source_id
    source_product_name := o.source_product_name
    price := o.price
    currency := o.currency
    product_url := o.product_url
    scraped_at := now
    attributes := o.attributes }

/-- Whether the store already holds a row for this URL
(membership in `existing_prices_dict`, which is computed once, from the
database state BEFORE the loop). -/
def urlInStore (store : List PriceRecord) (url : String) : Bool :=
  store.any fun r => r.product_url = url

/-- The loop body of the update pass of `create_multi`, with the membership
test in `existing_prices_dict` abstracted as `pred` (the dict is computed
once, before the loop, so the predicate is fixed throughout the fold). -/
def applyUpdatesAux (now : Int) (pred : String → Bool) (st : List PriceRecord)
    (objs : List PriceCreate) : List PriceRecord :=
  objs.foldl
    (fun st o =>
      if pred o.product_url then
        st.map fun r => if r.product_url = o.product_url then updateFromCreate now o r else r
      else st)
    st

/-- The update pass of `create_multi`: each batch item whose URL is already
in the pre-existing store updates that row in place (the session's identity
map makes successive duplicates hit the same object, so later items
overwrite earlier ones). -/
def applyUpdates (now : Int) (store : List PriceRecord) (objs : List PriceCreate) :
    List PriceRecord :=
  applyUpdatesAux now (urlInStore store) store objs

/-- The insert pass of `create_multi`: every batch item whose URL is NOT in
the pre-existing store becomes a fresh row (note: the lookup dict is never
refreshed during the loop, so two batch items with the same new URL both
become inserts). Ids are assigned consecutively from `nextId`. -/
def newRows (now : Int) (nextId : Nat) (store : List PriceRecord)
    (objs : List PriceCreate) : List PriceRecord :=
  ((objs.filter fun o => ¬ urlInStore store o.product_url).enum).map
    fun p => freshRecord now (nextId + p.1) p.2

/-- `CRUDPrice.create_multi` (upsert_many): stage updates against existing
rows and inserts for new URLs, then commit in one transaction. The commit
enforces the UNIQUE constraint on `product_url`; a violation rolls the
transaction back with an IntegrityError. -/
def create_multi (now : Int) (nextId : Nat) (store : List PriceRecord)
    (objs : List PriceCreate) : Except String (List PriceRecord) :=
  if ((applyUpdates now store objs ++ newRows now nextId store objs).map
      (·.product_url)).Nodup then
    .ok (applyUpdates now store objs ++ newRows now nextId store objs)
  else .error "IntegrityError"

/-! ## Search results and the service read path (`search_service.py`) -/

/-- A row of the `sources` table, as far as the read path needs it. -/
structure SourceRec where
  source_id : Nat
  name : String
  base_url : String
  deriving DecidableEq, Repr

/-- The `SearchResultItem` response schema. -/
structure SearchResultItem where
  source_name : String
  source_product_name : String
  price : ℚ
  currency : String
  product_url : String
  scraped_at : Int
  deriving DecidableEq, Repr

/-- A price row together with its (joinedload-ed) source, as returned by
`get_multi_by_query(..., include_source=True)`. -/
structure PriceJoined where
  row : PriceRecord
  source : Option SourceRec
  deriving DecidableEq, Repr

/-- `SearchService._format_db_results`: convert DB rows to response items,
dropping any row whose source relation was not loaded. -/
def format_db_results (rows : List PriceJoined) : List SearchResultItem :=
  rows.filterMap fun pj =>
    match pj.source with
    | some s =>
        some { source_name := s.name
               source_product_name := pj.row.source_product_name
               price := pj.row.price
               currency := pj.row.currency
               product_url := pj.row.product_url
               scraped_at := pj.row.scraped_at }
    | none => none

/-- Outcome of `SearchService.get_search_results`, with an explicit trace of
the cache writes it performed. -/
structure SearchFetch where
  results : List SearchResultItem
  from_cache : Bool
  cacheWrites : List (List SearchResultItem)
  deriving DecidableEq, Repr

/-- `SearchService.get_search_results`: consult the cache unless
`force_refresh`; on a miss read the store, format, and cache the formatted
list only when it is non-empty. `cached = none` covers both a cache miss
and an undecodable cache entry. -/
def get_search_results (force_refresh : Bool) (cached : Option (List SearchResultItem))
    (dbRows : List PriceJoined) : SearchFetch :=
  match (if force_refresh then none else cached) with
  | some c => { results := c, from_cache := true, cacheWrites := [] }
  | none =>
      let formatted := format_db_results dbRows
      { results := formatted
        from_cache := false
        cacheWrites := if formatted.isEmpty then [] else [formatted] }

/-! ## Staleness and the refresh decision (`endpoints/search.py`) -/

/-- `are_results_stale`: true when the list is empty or some item was
scraped strictly before `now - maxAgeHours` (timestamps in seconds; the
timezone normalisation in the source is a no-op here since all model
timestamps are already UTC instants). -/
def are_results_stale (results : List SearchResultItem) (now : Int)
    (maxAgeHours : Int) : Bool :=
  if results.isEmpty then true
  else results.any fun item => item.scraped_at < now - maxAgeHours * 3600

/-- The `should_scrape` decision in `search_products` (steps 3 of the
endpoint): forced refresh, or store-served results that are stale, or
store-served and empty. -/
def should_scrape_decision (force_refresh from_cache : Bool)
    (results : List SearchResultItem) (now : Int) : Bool :=
  if force_refresh then true
  else if !from_cache && are_results_stale results now 1 then true
  else if results.isEmpty && !from_cache then true
  else false

/-! ## Query-term flow through `search_products` -/

/-- Python's `str.strip()`: drop whitespace from both ends. -/
def stripChars (cs : List Char) : List Char :=
  ((cs.dropWhile Char.isWhitespace).reverse.dropWhile Char.isWhitespace).reverse

/-- Python's `str.lower()`. -/
def pyLower (s : String) : String := ⟨s.data.map Char.toLower⟩

/-- Python's `str.strip()` on strings. -/
def pyStrip (s : String) : String := ⟨stripChars s.data⟩

/-- The spec's notion of query normalisation: trim whitespace and
lower-case. -/
def normalize_query (q : String) : String := pyStrip (pyLower q)

/-- `SearchService._get_cache_key`: `f"search:{query.lower().strip()}"`. -/
def cache_key (q : String) : String := "search:" ++ pyStrip (pyLower q)

/-- The query term each downstream operation of one `search_products`
request actually receives. -/
structure PipelineTerms where
  cacheKey : String
  storeTerm : String
  jobTerm : String
  deriving DecidableEq, Repr

/-- How `search_products` threads the validated `query` parameter: the cache
key is built by `_get_cache_key`, while `get_multi_by_query`,
`get_pending_for_query` and `ScrapeJobCreate` all receive the raw `query`
string unchanged. -/
def search_products_terms (query : String) : PipelineTerms :=
  { cacheKey := cache_key query
    storeTerm := query
    jobTerm := query }

/-! ## Scrapers (`base_scraper.py`) -/

/-- What can happen to the HTTP GET issued by `BaseScraper.fetch_page`. -/
inductive FetchOutcome
  | timeout
  | requestError (name : String)
  | httpStatusError (code : Nat)
  | okResp (content : String)
  deriving DecidableEq, Repr

/-- An item produced by a concrete scraper (`ScrapedData`). -/
structure ScrapedData where
  source_product_name : String
  price : ℚ
  currency : String := "CLP"
  product_url : String
  attributes : Option String := none
  deriving DecidableEq, Repr

/-- `BaseScraper.fetch_page`: a timeout, a network error or a 4xx/5xx status
is caught and logged, and the method returns None; only a successful
response yields the page body. -/
def fetch_page (f : FetchOutcome) : Option String :=
  match f with
  | .okResp content => some content
  | _ => none

/-- `BaseScraper.scrape`: build the URL (exceptions raised there propagate,
this line sits outside every try block), fetch the page (transport failures
become an empty result list), then parse; parse and per-item validation
errors are caught, so the parse step is modelled by the list of items it
yields. -/
def scrape (buildUrl : Except String String) (fetch : FetchOutcome)
    (parse : String → List ScrapedData) : Except String (List ScrapedData) :=
  match buildUrl with
  | .error e => .error e
  | .ok url =>
      if url = "" then .ok []
      else
        match fetch_page fetch with
        | none => .ok []
        | some content => .ok (parse content)

/-- `SearchService._run_scraper_task`: wrap each scraped item into a
`PriceCreate` carrying the query term and the source id. -/
def run_scraper_task (query : String) (source_id : Nat)
    (items : List ScrapedData) : List PriceCreate :=
  items.map fun it =>
    { product_query_term := query
      source_id := source_id
      source_product_name := it.source_product_name
      price := it.price
      currency := it.currency
      product_url := it.product_url
      attributes := it.attributes }

/-! ## The background refresh (`SearchService.perform_scraping`) -/

/-- The per-source error messages collected from the `asyncio.gather`
results: one `"Error en scraper {name}: {class}"` entry per adapter whose
invocation raised. -/
def scrapeErrors (sources : List String)
    (outcomes : List (Except String (List PriceCreate))) : List String :=
  (sources.zip outcomes).filterMap fun p =>
    match p.2 with
    | .error e => some ("Error en scraper " ++ p.1 ++ ": " ++ e)
    | .ok _ => none

/-- The successfully scraped items, concatenated in source order
(`all_prices_to_create`). -/
def scrapedPrices (outcomes : List (Except String (List PriceCreate))) :
    List PriceCreate :=
  (outcomes.filterMap fun o =>
    match o with
    | .ok l => some l
    | .error _ => none).flatten

/-- The persistence step of `perform_scraping`: nothing to do when no item
was scraped, otherwise `create_multi`; a DB failure there leaves the store
as it was and contributes a "DB Error" message. -/
def performUpsert (now : Int) (nextId : Nat) (store : List PriceRecord)
    (allPrices : List PriceCreate) : List PriceRecord × List String :=
  if allPrices.isEmpty then (store, [])
  else
    match create_multi now nextId store allPrices with
    | .ok st => (st, [])
    | .error e => (store, ["DB Error: " ++ e])

/-- `SearchService.perform_scraping`: mark the job RUNNING, gather the
per-source outcomes, persist whatever succeeded, then mark the job FAILED
with the "; "-joined error messages when anything went wrong (adapter
exceptions or DB failure) and COMPLETED otherwise. `sources` and `outcomes`
are paired by position. Returns the final registry and store. -/
def perform_scraping (now : Int) (nextId : Nat) (job_id : Nat)
    (sources : List String) (outcomes : List (Except String (List PriceCreate)))
    (jobs : List JobRecord) (store : List PriceRecord) :
    List JobRecord × List PriceRecord :=
  if sources.isEmpty then
    (markAsFailed now "No active sources" (markAsRunning now jobs job_id) job_id, store)
  else if (scrapeErrors sources outcomes ++
      (performUpsert now nextId store (scrapedPrices outcomes)).2).isEmpty then
    (markAsCompleted now (markAsRunning now jobs job_id) job_id,
      (performUpsert now nextId store (scrapedPrices outcomes)).1)
  else
    (markAsFailed now
      (String.intercalate "; " (scrapeErrors sources outcomes ++
        (performUpsert now nextId store (scrapedPrices outcomes)).2))
      (markAsRunning now jobs job_id) job_id,
      (performUpsert now nextId store (scrapedPrices outcomes)).1)

/-! ## The background task wrapper (`run_background_scraping`) -/

/-- The failure path of `run_background_scraping` when the exception is
raised during setup, BEFORE `perform_scraping` (and hence before
`mark_as_running`) runs: the handler calls `mark_as_failed` only when a DB
session was obtained, and otherwise does nothing. -/
def backgroundEarlyFailure (now : Int) (jobs : List JobRecord) (job_id : Nat)
    (dbObtained : Bool) (excClass : String) : List JobRecord :=
  if dbObtained then
    markAsFailed now ("Background task error: " ++ excClass) jobs job_id
  else jobs

/-! ## Price extraction (`BaseScraper._extract_price`) -/

/-- Value of a digit string read left to right. -/
def digitsToNat (cs : List Char) : Nat :=
  cs.foldl (fun a c => 10 * a + (c.toNat - '0'.toNat)) 0

/-- The cleaning chain of `_extract_price`:
`replace("$","").replace(".","").replace(" ","")`, then `.strip()`, then
`replace(",", ".")`. Single-character replacements by the empty string are
deletions. -/
def cleanPriceChars (cs : List Char) : List Char :=
  (stripChars (cs.filter fun c => !(c = '$' || c = '.' || c = ' '))).map
    fun c => if c = ',' then '.' else c

/-- `decimal.Decimal(str)` on an unsigned literal: an integer part, an
optional point and fraction part, at least one digit overall; anything else
raises InvalidOperation, modelled as `none` (exponent forms do not arise
from the cleaning chain's outputs considered here). -/
def parseUnsignedDec (cs : List Char) : Option ℚ :=
  match cs.dropWhile Char.isDigit with
  | [] =>
      if (cs.takeWhile Char.isDigit).isEmpty then none
      else some (digitsToNat (cs.takeWhile Char.isDigit))
  | '.' :: fp =>
      if fp.all Char.isDigit && !((cs.takeWhile Char.isDigit).isEmpty && fp.isEmpty) then
        some ((digitsToNat (cs.takeWhile Char.isDigit) : ℚ)
          + (digitsToNat fp : ℚ) / (10 : ℚ) ^ fp.length)
      else none
  | _ => none

/-- `decimal.Decimal(str)` including an optional leading sign. -/
def parseDecimalString (cs : List Char) : Option ℚ :=
  match cs with
  | [] => parseUnsignedDec []
  | c :: rest =>
      if c = '-' then (parseUnsignedDec rest).map (fun x => -x)
      else if c = '+' then parseUnsignedDec rest
      else parseUnsignedDec (c :: rest)

/-- `BaseScraper._extract_price`: falsy input returns None immediately;
otherwise clean the text and try `Decimal`, catching conversion failures
and returning None. -/
def extract_price (s : String) : Option ℚ :=
  if s.data.isEmpty then none
  else parseDecimalString (cleanPriceChars s.data)

/-! ## Status-transition apparatus for the job life cycle -/

/-- One call of the three transition endpoints of `CRUDScrapeJob`, applied
to a single record. -/
inductive RecOp
  | runOp (now : Int)
  | completeOp (now : Int)
  | failOp (now : Int) (msg : String)

/-- Apply one transition call to a record. -/
def applyRecOp (j : JobRecord) : RecOp → JobRecord
  | .runOp now => markRunningRec now j
  | .completeOp now => markCompletedRec now j
  | .failOp now msg => markFailedRec now msg j

/-- Height of a status in the DAG PENDING → RUNNING → {COMPLETED, FAILED}. -/
def statusRank : JobStatus → Nat
  | .pending => 0
  | .running => 1
  | .completed => 2
  | .failed => 2

/-! ## Concrete sample data used by witnesses and counterexamples -/

/-- A PENDING job for `shoes`. -/
def jobShoes : JobRecord := { job_id := 1, query_term := "shoes", status := .pending }

/-- A response item scraped at a given instant. -/
def itemAt (t : Int) : SearchResultItem :=
  { source_name := "MercadoLibre"
    source_product_name := "prod"
    price := 10
    currency := "CLP"
    product_url := "https://ml.example/p/1"
    scraped_at := t }

/-- A DB row joined with its source. -/
def joined0 : PriceJoined :=
  { row := { price_id := 1
             product_query_term := "shoes"
             source_id := 1
             source_product_name := "prod"
             price := 10
             currency := "CLP"
             product_url := "https://ml.example/p/1"
             scraped_at := 0 }
    source := some { source_id := 1, name := "MercadoLibre", base_url := "https://ml.example" } }

/-- A batch item. -/
def pcA : PriceCreate :=
  { product_query_term := "shoes"
    source_id := 1
    source_product_name := "A"
    price := 10
    currency := "CLP"
    product_url := "https://ml.example/p/1" }

/-- A second batch item with the same `product_url` as `pcA`. -/
def pcB : PriceCreate :=
  { pcA with source_product_name := "B", price := 20, attributes := some "color:red" }

/-- An item produced by a successful scraper. -/
def sd0 : ScrapedData :=
  { source_product_name := "prod"
    price := 10
    product_url := "https://ml.example/p/1" }

/-! ## Helper lemmas -/

lemma statusRank_le_applyRecOp (j : JobRecord) (op : RecOp) :
    statusRank j.status ≤ statusRank (applyRecOp j op).status := by
  cases op with
  | runOp now =>
      by_cases h : j.status = .pending
      · simp [applyRecOp, markRunningRec, h, statusRank]
      · simp [applyRecOp, markRunningRec, h]
  | completeOp now =>
      by_cases h : j.status = .running
      · simp [applyRecOp, markCompletedRec, h, statusRank]
      · simp [applyRecOp, markCompletedRec, h]
  | failOp now msg =>
      by_cases h : j.status = .running
      · simp [applyRecOp, markFailedRec, h, statusRank]
      · simp [applyRecOp, markFailedRec, h]

/-! ## C6 -/

/-- **C6** — Job status moves only along the DAG
PENDING → RUNNING → {COMPLETED, FAILED}: each transition endpoint is gated
on the expected prior state and is a no-op (returning the record unchanged)
from any other state; `started_at` is set on PENDING→RUNNING and
`completed_at` on the terminal transitions; over any serialized sequence of
transition calls the status never moves backwards. -/
theorem job_status_monotone (j : JobRecord) (now : Int) (msg : String) (ops : List RecOp) :
    (j.status = .pending →
      markRunningRec now j = { j with status := .running, started_at := some now }) ∧
    (j.status ≠ .pending → markRunningRec now j = j) ∧
    (j.status = .running →
      markCompletedRec now j = { j with status := .completed, completed_at := some now }) ∧
    (j.status ≠ .running → markCompletedRec now j = j) ∧
    (j.status = .running →
      markFailedRec now msg j =
        { j with status := .failed, completed_at := some now, error_message := some msg }) ∧
    (j.status ≠ .running → markFailedRec now msg j = j) ∧
    (∀ op : RecOp, applyRecOp j op = j ∨
      (j.status = .pending ∧ (applyRecOp j op).status = .running) ∨
      (j.status = .running ∧
        ((applyRecOp j op).status = .completed ∨ (applyRecOp j op).status = .failed))) ∧
    statusRank j.status ≤ statusRank (ops.foldl applyRecOp j).status := by
  refine ⟨?_, ?_, ?_, ?_, ?_, ?_, ?_, ?_⟩
  · intro h; simp [markRunningRec, h]
  · intro h; simp [markRunningRec, h]
  · intro h; simp [markCompletedRec, h]
  · intro h; simp [markCompletedRec, h]
  · intro h; simp [markFailedRec, h]
  · intro h; simp [markFailedRec, h]
  · intro op
    cases op with
    | runOp n =>
        by_cases h : j.status = .pending
        · exact Or.inr (Or.inl ⟨h, by simp [applyRecOp, markRunningRec, h]⟩)
        · exact Or.inl (by simp [applyRecOp, markRunningRec, h])
    | completeOp n =>
        by_cases h : j.status = .running
        · exact Or.inr (Or.inr ⟨h, Or.inl (by simp [applyRecOp, markCompletedRec, h])⟩)
        · exact Or.inl (by simp [applyRecOp, markCompletedRec, h])
    | failOp n m =>
        by_cases h : j.status = .running
        · exact Or.inr (Or.inr ⟨h, Or.inr (by simp [applyRecOp, markFailedRec, h])⟩)
        · exact Or.inl (by simp [applyRecOp, markFailedRec, h])
  · induction ops generalizing j with
    | nil => exact Nat.le_refl _
    | cons op t ih => exact Nat.le_trans (statusRank_le_applyRecOp j op) (ih (applyRecOp j op))

/-- Witness for C6: the PENDING job `jobShoes` transitions to RUNNING with
`started_at` set. -/
theorem job_status_monotone_witness :
    markRunningRec 0 jobShoes =
      { jobShoes with status := .running, started_at := some 0 } :=
  (job_status_monotone jobShoes 0 "e" []).1 rfl

/-! ## C4 -/

/-- **C4** — For store-served results with neither `force_refresh` nor a
cache hit, the refresh decision is exactly `are_results_stale`: refresh iff
the list is empty or some item was scraped strictly before
`now - 3600` seconds; an item at `now - 3600 + ε` triggers no refresh and
one at `now - 3600 - ε` does (for `ε > 0`). -/
theorem staleness_threshold_exact (results : List SearchResultItem) (now ε : Int)
    (it : SearchResultItem) (hε : 0 < ε) :
    (should_scrape_decision false false results now = true ↔
      results = [] ∨ ∃ i ∈ results, i.scraped_at < now - 3600) ∧
    (it.scraped_at = now - 3600 + ε →
      should_scrape_decision false false [it] now = false) ∧
    (it.scraped_at = now - 3600 - ε →
      should_scrape_decision false false [it] now = true) := by
  refine ⟨?_, ?_, ?_⟩
  · cases results with
    | nil => simp [should_scrape_decision, are_results_stale]
    | cons a l =>
        simp [should_scrape_decision, are_results_stale, List.any_eq_true]
  · intro h
    simp [should_scrape_decision, are_results_stale]
    omega
  · intro h
    simp [should_scrape_decision, are_results_stale]
    omega

/-- Witness for C4: a single item scraped 3601 seconds ago (at `now = 0`)
triggers a refresh. -/
theorem staleness_threshold_exact_witness :
    should_scrape_decision false false [itemAt (-3601)] 0 = true :=
  (staleness_threshold_exact [itemAt (-3601)] 0 1 (itemAt (-3601)) (by norm_num)).2.2 rfl

/-! ## C5 -/

/-- **C5** (counterexample) — The accepted query `"Shoes"` (length 5, inside
`[3, 100]`) is NOT normalized before entering the pipeline: the store read
and the job-registry operations receive the raw string `"Shoes"`, which
differs from the normalized term, so the downstream operations do not all
operate on the normalized query term. -/
theorem query_not_normalized_counterexample :
    3 ≤ "Shoes".length ∧ "Shoes".length ≤ 100 ∧
    ¬ ((search_products_terms "Shoes").storeTerm = normalize_query "Shoes" ∧
       (search_products_terms "Shoes").jobTerm = normalize_query "Shoes") := by
  refine ⟨by decide, by decide, ?_⟩
  intro hcontra
  exact absurd hcontra.1 (by decide)

/-- **C5** (amended) — Only the cache key is normalized: `_get_cache_key`
lower-cases and strips the query internally, while the store read, the
job-registry lookup and job creation all receive the raw query string; the
downstream operations therefore agree on one normalized term exactly when
the query is already in normalized form. -/
theorem query_term_flow (q : String) :
    (search_products_terms q).cacheKey = "search:" ++ normalize_query q ∧
    (search_products_terms q).storeTerm = q ∧
    (search_products_terms q).jobTerm = q ∧
    (normalize_query q = q →
      (search_products_terms q).storeTerm = normalize_query q ∧
      (search_products_terms q).jobTerm = normalize_query q ∧
      (search_products_terms q).cacheKey =
        "search:" ++ (search_products_terms q).storeTerm) := by
  refine ⟨rfl, rfl, rfl, ?_⟩
  intro h
  refine ⟨h.symm, h.symm, ?_⟩
  show cache_key q = "search:" ++ q
  rw [show cache_key q = "search:" ++ normalize_query q from rfl, h]

/-- Witness for C5 (amended): on the already-normalized query `"shoes"` all
downstream terms agree. -/
theorem query_term_flow_witness :
    (search_products_terms "shoes").storeTerm = normalize_query "shoes" ∧
    (search_products_terms "shoes").jobTerm = normalize_query "shoes" ∧
    (search_products_terms "shoes").cacheKey =
      "search:" ++ (search_products_terms "shoes").storeTerm :=
  (query_term_flow "shoes").2.2.2 (by decide)

/-! ## C7 -/

/-- **C7** — On the read path a cache write happens exactly when the
results were served from the store and the formatted result list is
non-empty: cache hits write nothing, empty store results are never cached,
and a non-empty response with `from_cache = false` has been written to the
cache (with exactly those results) before it is returned. -/
theorem cache_write_iff_store_nonempty (force : Bool)
    (cached : Option (List SearchResultItem)) (dbRows : List PriceJoined) :
    ((get_search_results force cached dbRows).from_cache = true →
      (get_search_results force cached dbRows).cacheWrites = []) ∧
    ((get_search_results force cached dbRows).from_cache = false →
      (get_search_results force cached dbRows).results = format_db_results dbRows) ∧
    ((get_search_results force cached dbRows).results = [] →
      (get_search_results force cached dbRows).cacheWrites = []) ∧
    ((get_search_results force cached dbRows).results ≠ [] →
      (get_search_results force cached dbRows).from_cache = false →
      (get_search_results force cached dbRows).cacheWrites =
        [(get_search_results force cached dbRows).results]) ∧
    ((get_search_results force cached dbRows).cacheWrites ≠ [] ↔
      ((get_search_results force cached dbRows).from_cache = false ∧
       (get_search_results force cached dbRows).results ≠ [])) := by
  by_cases hf : force = true
  · subst hf
    by_cases hfmt : format_db_results dbRows = [] <;>
      simp [get_search_results, hfmt]
  · have hf' : force = false := by
      cases force
      · rfl
      · exact absurd rfl hf
    subst hf'
    cases cached with
    | none =>
        by_cases hfmt : format_db_results dbRows = [] <;>
          simp [get_search_results, hfmt]
    | some c =>
        simp [get_search_results]

/-- Witness for C7: serving `joined0` from the store writes exactly the
formatted results to the cache. -/
theorem cache_write_iff_store_nonempty_witness :
    (get_search_results false none [joined0]).cacheWrites =
      [(get_search_results false none [joined0]).results] :=
  (cache_write_iff_store_nonempty false none [joined0]).2.2.2.1
    (by decide) (by decide)

/-! ## Helper lemmas about the job registry -/

/-- `countActive` as a `countP`. -/
lemma countActive_eq_countP (jobs : List JobRecord) (q : String) :
    countActive jobs q = jobs.countP (fun j => j.query_term = q && isActive j) := by
  simp [countActive, List.countP_eq_length_filter]

lemma markRunningRec_query_term (now : Int) (j : JobRecord) :
    (markRunningRec now j).query_term = j.query_term := by
  unfold markRunningRec; split <;> rfl

lemma markCompletedRec_query_term (now : Int) (j : JobRecord) :
    (markCompletedRec now j).query_term = j.query_term := by
  unfold markCompletedRec; split <;> rfl

lemma markFailedRec_query_term (now : Int) (msg : String) (j : JobRecord) :
    (markFailedRec now msg j).query_term = j.query_term := by
  unfold markFailedRec; split <;> rfl

lemma isActive_of_markRunningRec (now : Int) (j : JobRecord) :
    isActive (markRunningRec now j) = true → isActive j = true := by
  unfold markRunningRec
  split
  · intro _; simp_all [isActive]
  · exact id

lemma isActive_of_markCompletedRec (now : Int) (j : JobRecord) :
    isActive (markCompletedRec now j) = true → isActive j = true := by
  unfold markCompletedRec
  split
  · intro h; simp [isActive] at h
  · exact id

lemma isActive_of_markFailedRec (now : Int) (msg : String) (j : JobRecord) :
    isActive (markFailedRec now msg j) = true → isActive j = true := by
  unfold markFailedRec
  split
  · intro h; simp [isActive] at h
  · exact id

/-- Mapping a query-preserving, activity-non-increasing function over the
registry cannot increase the number of active jobs for any query. -/
lemma countActive_map_le (f : JobRecord → JobRecord)
    (hq : ∀ k, (f k).query_term = k.query_term)
    (ha : ∀ k, isActive (f k) = true → isActive k = true)
    (jobs : List JobRecord) (q : String) :
    countActive (jobs.map f) q ≤ countActive jobs q := by
  rw [countActive_eq_countP, countActive_eq_countP, List.countP_map]
  refine List.countP_mono_left ?_
  intro k _ hk
  simp only [Function.comp] at hk
  simp only [Bool.and_eq_true, decide_eq_true_eq] at hk ⊢
  exact ⟨(hq k) ▸ hk.1, ha k hk.2⟩

/-- One serialized operation preserves "at most one active job per query". -/
lemma countActive_applyOp_le_one (jobs : List JobRecord) (op : SysOp) (q : String)
    (h : countActive jobs q ≤ 1) :
    countActive (applyOp jobs op) q ≤ 1 := by
  cases op with
  | search q' nid =>
      simp only [applyOp, coordinatorStep]
      cases hfind : get_pending_for_query jobs q' with
      | some j => exact h
      | none =>
          simp only
          have happ : countActive (jobs ++ [{ job_id := nid, query_term := q', status := .pending }]) q
              = countActive jobs q
                + countActive [{ job_id := nid, query_term := q', status := .pending }] q := by
            simp [countActive, List.filter_append]
          rw [happ]
          by_cases hq : q' = q
      -- if the new job is for `q`, there were no active jobs for `q` at all
          · subst hq
            have hzero : countActive jobs q' = 0 := by
              rw [countActive_eq_countP]
              rw [List.countP_eq_zero.mpr]
              intro k hk
              exact (List.find?_eq_none.mp hfind) k hk
            rw [hzero]
            have : countActive [{ job_id := nid, query_term := q', status := JobStatus.pending }] q' ≤ 1 := by
              simp [countActive, List.filter, isActive]
            omega
          · have : countActive [{ job_id := nid, query_term := q', status := JobStatus.pending }] q = 0 := by
              simp [countActive, List.filter, hq]
            omega
  | runJob id now =>
      refine Nat.le_trans ?_ h
      refine countActive_map_le _ ?_ ?_ jobs q
      · intro k; by_cases hid : k.job_id = id <;> simp [hid, markRunningRec_query_term]
      · intro k
        by_cases hid : k.job_id = id
        · simpa [hid] using isActive_of_markRunningRec now k
        · simp [hid]
  | completeJob id now =>
      refine Nat.le_trans ?_ h
      refine countActive_map_le _ ?_ ?_ jobs q
      · intro k; by_cases hid : k.job_id = id <;> simp [hid, markCompletedRec_query_term]
      · intro k
        by_cases hid : k.job_id = id
        · simpa [hid] using isActive_of_markCompletedRec now k
        · simp [hid]
  | failJob id now msg =>
      refine Nat.le_trans ?_ h
      refine countActive_map_le _ ?_ ?_ jobs q
      · intro k; by_cases hid : k.job_id = id <;> simp [hid, markFailedRec_query_term]
      · intro k
        by_cases hid : k.job_id = id
        · simpa [hid] using isActive_of_markFailedRec now msg k
        · simp [hid]

/-- The invariant holds along any serialized run that starts from a registry
satisfying it. -/
lemma countActive_foldl_le_one (ops : List SysOp) (jobs : List JobRecord)
    (h : ∀ q, countActive jobs q ≤ 1) :
    ∀ q, countActive (ops.foldl applyOp jobs) q ≤ 1 := by
  induction ops generalizing jobs with
  | nil => exact h
  | cons op t ih =>
      exact ih (applyOp jobs op) (fun q => countActive_applyOp_le_one jobs op q (h q))

/-! ## C1 -/

/-- **C1** — Duplicate refresh suppression: when the coordinator decides to
refresh and an active (PENDING or RUNNING) job already exists for the query,
the response carries that job's id and the registry is unchanged (no new row
is created); and over any serialized sequence of coordinator calls and
background transitions starting from an empty registry, every query term has
at most one active job. -/
theorem active_job_unique (jobs : List JobRecord) (q : String) (j : JobRecord)
    (nextId : Nat) (ops : List SysOp)
    (hfind : get_pending_for_query jobs q = some j) :
    coordinatorStep jobs q nextId = (some j.job_id, jobs) ∧
    ∀ q', countActive (ops.foldl applyOp []) q' ≤ 1 := by
  constructor
  · simp [coordinatorStep, hfind]
  · exact countActive_foldl_le_one ops []
      (fun q' => by simp [countActive, List.filter])

/-- Witness for C1: with a PENDING job for `shoes` in the registry, the
coordinator answers with its id and creates nothing; a fresh serialized run
of one search keeps every count at most one. -/
theorem active_job_unique_witness :
    coordinatorStep [jobShoes] "shoes" 9 = (some jobShoes.job_id, [jobShoes]) ∧
    ∀ q', countActive ([SysOp.search "shoes" 5].foldl applyOp []) q' ≤ 1 :=
  active_job_unique [jobShoes] "shoes" jobShoes 9 [SysOp.search "shoes" 5] (by decide)

/-! ## C9 -/

/-- **C9** — If the background task raises before `mark_as_running` has
executed, the handler's `mark_as_failed` (called only when a DB session was
obtained) is a no-op because the job is still PENDING, so the registry is
unchanged: the job remains PENDING and a later coordinator call for its
query term is still suppressed by it. -/
theorem early_failure_leaves_job_pending (now : Int) (jobs : List JobRecord)
    (j : JobRecord) (dbObtained : Bool) (excClass : String) (q : String) (nextId : Nat)
    (hfind : get_pending_for_query jobs q = some j)
    (hpend : ∀ k ∈ jobs, k.job_id = j.job_id → k.status = .pending) :
    backgroundEarlyFailure now jobs j.job_id dbObtained excClass = jobs ∧
    j.status = .pending ∧
    coordinatorStep (backgroundEarlyFailure now jobs j.job_id dbObtained excClass) q nextId
      = (some j.job_id, jobs) := by
  have hjmem : j ∈ jobs := List.mem_of_find?_eq_some hfind
  have hjpend : j.status = .pending := hpend j hjmem rfl
  have hunch : backgroundEarlyFailure now jobs j.job_id dbObtained excClass = jobs := by
    unfold backgroundEarlyFailure
    cases dbObtained with
    | false => simp
    | true =>
        simp only [if_pos rfl]
        unfold markAsFailed
        have : ∀ k ∈ jobs,
            (if k.job_id = j.job_id then
              markFailedRec now ("Background task error: " ++ excClass) k else k) = k := by
          intro k hk
          by_cases hid : k.job_id = j.job_id
          · have : k.status = .pending := hpend k hk hid
            simp [hid, markFailedRec, this]
          · simp [hid]
        rw [List.map_congr_left this]
        simp
  refine ⟨hunch, hjpend, ?_⟩
  rw [hunch]
  simp [coordinatorStep, hfind]

/-- Witness for C9: a registry holding only the PENDING `jobShoes` is
untouched by the early-failure handler and still suppresses refreshes for
`shoes`. -/
theorem early_failure_leaves_job_pending_witness :
    backgroundEarlyFailure 0 [jobShoes] jobShoes.job_id true "ConnectionError" = [jobShoes] ∧
    jobShoes.status = .pending ∧
    coordinatorStep (backgroundEarlyFailure 0 [jobShoes] jobShoes.job_id true "ConnectionError")
      "shoes" 7 = (some jobShoes.job_id, [jobShoes]) :=
  early_failure_leaves_job_pending 0 [jobShoes] jobShoes true "ConnectionError" "shoes" 7
    (by decide) (by decide)

/-! ## Helper lemmas about characters and the decimal parser -/

lemma dropWhile_eq_self_of_none (p : Char → Bool) (l : List Char)
    (h : ∀ c ∈ l, p c = false) : l.dropWhile p = l := by
  cases l with
  | nil => rfl
  | cons a t => simp [List.dropWhile_cons, h a (by simp)]

lemma takeWhile_eq_self_of_all (p : Char → Bool) (l : List Char)
    (h : ∀ c ∈ l, p c = true) : l.takeWhile p = l := by
  induction l with
  | nil => rfl
  | cons a t ih =>
      simp only [List.takeWhile_cons, h a (by simp)]
      simpa using ih (fun c hc => h c (by simp [hc]))

lemma dropWhile_eq_nil_of_all (p : Char → Bool) (l : List Char)
    (h : ∀ c ∈ l, p c = true) : l.dropWhile p = [] := by
  induction l with
  | nil => rfl
  | cons a t ih =>
      simp only [List.dropWhile_cons, h a (by simp)]
      simpa using ih (fun c hc => h c (by simp [hc]))

lemma stripChars_eq_self (l : List Char) (h : ∀ c ∈ l, c.isWhitespace = false) :
    stripChars l = l := by
  unfold stripChars
  rw [dropWhile_eq_self_of_none _ _ h]
  rw [dropWhile_eq_self_of_none _ _ (fun c hc => h c (List.mem_reverse.mp hc))]
  exact List.reverse_reverse l

lemma isDigit_ne (c d : Char) (h : c.isDigit = true) (hd : d.isDigit = false) :
    c ≠ d := by
  intro he
  subst he
  rw [h] at hd
  cases hd

lemma not_whitespace_of_isDigit (c : Char) (h : c.isDigit = true) :
    c.isWhitespace = false := by
  cases hw : c.isWhitespace
  · rfl
  · exfalso
    simp only [Char.isWhitespace, Bool.or_eq_true, decide_eq_true_eq] at hw
    rcases hw with ((h1 | h1) | h1) | h1 <;> (subst h1; revert h; decide)

/-- On an input made of digits and dots, the cleaning chain keeps exactly
the digits. -/
lemma cleanPriceChars_digits_dots (l : List Char)
    (h : ∀ c ∈ l, c.isDigit = true ∨ c = '.') :
    cleanPriceChars l = l.filter Char.isDigit := by
  unfold cleanPriceChars
  have h1 : l.filter (fun c => !(c = '$' || c = '.' || c = ' ')) = l.filter Char.isDigit := by
    refine List.filter_congr ?_
    intro c hc
    rcases h c hc with hd | hdot
    · simp [isDigit_ne c '$' hd (by decide), isDigit_ne c '.' hd (by decide),
        isDigit_ne c ' ' hd (by decide), hd]
    · subst hdot
      decide
  rw [h1]
  rw [stripChars_eq_self _
    (fun c hc => not_whitespace_of_isDigit c (List.of_mem_filter hc))]
  refine (List.map_congr_left ?_).trans (List.map_id _)
  intro c hc
  simp [isDigit_ne c ',' (List.of_mem_filter hc) (by decide)]

/-- `Decimal` on an unsigned all-digit string yields the concatenated digit
value. -/
lemma parseUnsignedDec_all_digits (l : List Char) (hne : l ≠ [])
    (h : ∀ c ∈ l, c.isDigit = true) :
    parseUnsignedDec l = some ((digitsToNat l : ℚ)) := by
  unfold parseUnsignedDec
  rw [dropWhile_eq_nil_of_all _ _ h, takeWhile_eq_self_of_all _ _ h]
  simp [List.isEmpty_iff, hne]

/-- The sign cases do not fire on an all-digit string. -/
lemma parseDecimalString_all_digits (l : List Char) (hne : l ≠ [])
    (h : ∀ c ∈ l, c.isDigit = true) :
    parseDecimalString l = some ((digitsToNat l : ℚ)) := by
  cases l with
  | nil => exact absurd rfl hne
  | cons c t =>
      have hc : c.isDigit = true := h c (by simp)
      simp only [parseDecimalString]
      rw [if_neg (isDigit_ne c '-' hc (by decide)),
        if_neg (isDigit_ne c '+' hc (by decide))]
      exact parseUnsignedDec_all_digits _ hne h

/-! ## C10 -/

/-- **C10** — `_extract_price` deletes every `'.'` before converting the
decimal comma, so an input made of digits and dots (with at least one
digit, e.g. a price that uses `'.'` as its decimal separator such as
`"1.50"`) parses to the value of its concatenated digits; and whenever the
cleaned text fails to parse as a decimal, the helper returns `none` instead
of raising. -/
theorem extract_price_dots_deleted (s : String)
    (hne : s.data ≠ [])
    (hchars : ∀ c ∈ s.data, c.isDigit = true ∨ c = '.')
    (hdig : ∃ c ∈ s.data, c.isDigit = true) :
    extract_price s = some ((digitsToNat (s.data.filter Char.isDigit) : ℚ)) ∧
    (∀ t : String, parseDecimalString (cleanPriceChars t.data) = none →
      extract_price t = none) := by
  constructor
  · have hfd : s.data.filter Char.isDigit ≠ [] := by
      obtain ⟨c, hc, hcd⟩ := hdig
      intro hnil
      have hmem := List.mem_filter.mpr ⟨hc, hcd⟩
      rw [hnil] at hmem
      cases hmem
    unfold extract_price
    rw [if_neg (by simpa [List.isEmpty_iff] using hne)]
    rw [cleanPriceChars_digits_dots _ hchars]
    exact parseDecimalString_all_digits _ hfd (fun c hc => List.of_mem_filter hc)
  · intro t hp
    unfold extract_price
    split
    · rfl
    · exact hp

/-- Witness for C10: the dot-as-decimal-separator price `"1.50"` becomes
150, one hundred times the intended value 3/2. -/
theorem extract_price_dots_deleted_witness :
    extract_price "1.50" = some 150 ∧ (150 : ℚ) = 100 * (3 / 2) := by
  have h := (extract_price_dots_deleted "1.50" (by decide) (by decide) (by decide)).1
  constructor
  · rw [h]
    decide
  · norm_num

/-! ## Helper lemmas about the upsert -/

lemma updateFromCreate_product_url (now : Int) (o : PriceCreate) (r : PriceRecord) :
    (updateFromCreate now o r).product_url = r.product_url := rfl

lemma updateFromCreate_comp (now : Int) (a b : PriceCreate) (r : PriceRecord) :
    updateFromCreate now b (updateFromCreate now a r) = updateFromCreate now b r := rfl

lemma freshRecord_product_url (now : Int) (id : Nat) (o : PriceCreate) :
    (freshRecord now id o).product_url = o.product_url := rfl

lemma applyUpdatesAux_nil (now : Int) (pred : String → Bool) (st : List PriceRecord) :
    applyUpdatesAux now pred st [] = st := rfl

lemma applyUpdatesAux_cons (now : Int) (pred : String → Bool) (st : List PriceRecord)
    (o : PriceCreate) (t : List PriceCreate) :
    applyUpdatesAux now pred st (o :: t) =
      applyUpdatesAux now pred
        (if pred o.product_url then
          st.map fun r =>
            if r.product_url = o.product_url then updateFromCreate now o r else r
        else st) t := rfl

/-- Updating rows in place never changes the list of URLs. -/
lemma map_update_url (now : Int) (o : PriceCreate) (st : List PriceRecord) :
    (st.map fun r =>
        if r.product_url = o.product_url then updateFromCreate now o r else r).map
      (·.product_url) = st.map (·.product_url) := by
  rw [List.map_map]
  refine List.map_congr_left ?_
  intro r _
  by_cases h : r.product_url = o.product_url <;>
    simp [Function.comp, h, updateFromCreate_product_url]

/-- The update pass never changes the list of URLs. -/
lemma applyUpdatesAux_map_url (now : Int) (pred : String → Bool)
    (objs : List PriceCreate) : ∀ st : List PriceRecord,
    (applyUpdatesAux now pred st objs).map (·.product_url) = st.map (·.product_url) := by
  induction objs with
  | nil => intro st; rfl
  | cons o t ih =>
      intro st
      rw [applyUpdatesAux_cons, ih]
      by_cases hp : pred o.product_url
      · rw [if_pos hp, map_update_url]
      · rw [if_neg hp]

/-- The URLs of the staged inserts are the URLs of the batch items that
were not already in the store. -/
lemma newRows_map_url (now : Int) (nextId : Nat) (store : List PriceRecord)
    (objs : List PriceCreate) :
    (newRows now nextId store objs).map (·.product_url) =
      (objs.filter fun o => ¬ urlInStore store o.product_url).map (·.product_url) := by
  unfold newRows
  rw [List.map_map]
  have h1 : ((objs.filter fun o => ¬ urlInStore store o.product_url).enum.map
      ((·.product_url) ∘ fun p => freshRecord now (nextId + p.1) p.2)) =
      ((objs.filter fun o => ¬ urlInStore store o.product_url).enum.map
        ((·.product_url) ∘ Prod.snd)) :=
    List.map_congr_left (fun p _ => rfl)
  rw [h1, ← List.map_map]
  rw [List.enum_map_snd]

lemma urlInStore_iff (store : List PriceRecord) (u : String) :
    urlInStore store u = true ↔ u ∈ store.map (·.product_url) := by
  simp [urlInStore, List.any_eq_true, List.mem_map]

/-- In a store whose URLs are distinct, the row found for a URL is the
member that carries it. -/
lemma find?_url_of_nodup (st : List PriceRecord) (r : PriceRecord) (u : String)
    (hnd : (st.map (·.product_url)).Nodup) (hr : r ∈ st) (hu : r.product_url = u) :
    st.find? (fun x => x.product_url = u) = some r := by
  induction st with
  | nil => cases hr
  | cons a t ih =>
      rcases List.mem_cons.mp hr with rfl | hrt
      · exact List.find?_cons_of_pos _ (by simp [hu])
      · rw [List.map_cons] at hnd
        have hnd' := List.nodup_cons.mp hnd
        have ha : a.product_url ≠ u := by
          intro he
          refine hnd'.1 ?_
          rw [he]
          exact List.mem_map.mpr ⟨r, hrt, hu⟩
        rw [List.find?_cons_of_neg _ (by simp [ha])]
        exact ih hnd'.2 hrt

/-- Tracking one existing row through the update pass: the row for URL `u`
ends up as the left fold of the updates of the batch items carrying `u`. -/
lemma applyUpdatesAux_find? (now : Int) (pred : String → Bool) (u : String)
    (hpu : pred u = true) (objs : List PriceCreate) :
    ∀ (st : List PriceRecord) (r : PriceRecord),
      (st.map (·.product_url)).Nodup → r ∈ st → r.product_url = u →
      (applyUpdatesAux now pred st objs).find? (fun x => x.product_url = u) =
        some ((objs.filter fun o => o.product_url = u).foldl
          (fun acc o => updateFromCreate now o acc) r) := by
  induction objs with
  | nil =>
      intro st r hnd hr hu
      rw [applyUpdatesAux_nil]
      simpa using find?_url_of_nodup st r u hnd hr hu
  | cons o t ih =>
      intro st r hnd hr hu
      rw [applyUpdatesAux_cons]
      by_cases hp : pred o.product_url = true
      · rw [if_pos hp]
        by_cases hou : o.product_url = u
        · have hfr : (if r.product_url = o.product_url then updateFromCreate now o r else r) =
              updateFromCreate now o r := if_pos (by rw [hu, hou])
          have hr' : updateFromCreate now o r ∈ st.map fun x =>
              if x.product_url = o.product_url then updateFromCreate now o x else x := by
            rw [← hfr]
            exact List.mem_map_of_mem _ hr
          have hnd' : ((st.map fun x =>
              if x.product_url = o.product_url then updateFromCreate now o x else x).map
                (·.product_url)).Nodup := by
            rw [map_update_url]; exact hnd
          rw [ih _ _ hnd' hr' (by rw [updateFromCreate_product_url, hu])]
          rw [List.filter_cons_of_pos (by simp [hou]), List.foldl_cons]
        · have hfr : (if r.product_url = o.product_url then updateFromCreate now o r else r) = r :=
            if_neg (by rw [hu]; exact fun he => hou he.symm)
          have hr' : r ∈ st.map fun x =>
              if x.product_url = o.product_url then updateFromCreate now o x else x := by
            rw [← hfr]
            exact List.mem_map_of_mem _ hr
          have hnd' : ((st.map fun x =>
              if x.product_url = o.product_url then updateFromCreate now o x else x).map
                (·.product_url)).Nodup := by
            rw [map_update_url]; exact hnd
          rw [ih _ _ hnd' hr' hu]
          rw [List.filter_cons_of_neg (by simp [hou])]
      · rw [if_neg hp]
        have hou : o.product_url ≠ u := fun he => hp (by rw [he]; exact hpu)
        rw [ih st r hnd hr hu]
        rw [List.filter_cons_of_neg (by simp [hou])]

/-- Collapsing successive in-place updates: the last batch item with the
URL wins. -/
lemma foldl_updateFromCreate (now : Int) (r : PriceRecord) (l : List PriceCreate)
    (h : l ≠ []) :
    l.foldl (fun acc o => updateFromCreate now o acc) r =
      updateFromCreate now (l.getLast h) r := by
  induction l generalizing r with
  | nil => exact absurd rfl h
  | cons o t ih =>
      cases t with
      | nil => rfl
      | cons o2 t2 =>
          rw [List.foldl_cons, ih (updateFromCreate now o r) (by simp)]
          rw [updateFromCreate_comp]
          rfl

/-- Destructing a successful commit. -/
lemma create_multi_ok_dest (now : Int) (nextId : Nat) (store st' : List PriceRecord)
    (objs : List PriceCreate)
    (hok : create_multi now nextId store objs = .ok st') :
    st' = applyUpdates now store objs ++ newRows now nextId store objs ∧
    ((applyUpdates now store objs ++ newRows now nextId store objs).map
      (·.product_url)).Nodup := by
  unfold create_multi at hok
  split at hok
  · cases hok
    exact ⟨rfl, by assumption⟩
  · cases hok

/-- A successful commit succeeds exactly on URL-distinct staged rows. -/
lemma create_multi_ok_of_nodup (now : Int) (nextId : Nat) (store : List PriceRecord)
    (objs : List PriceCreate)
    (hnd : ((applyUpdates now store objs ++ newRows now nextId store objs).map
      (·.product_url)).Nodup) :
    create_multi now nextId store objs =
      .ok (applyUpdates now store objs ++ newRows now nextId store objs) := by
  unfold create_multi
  rw [if_pos hnd]

/-- Every batch item's URL is present after a successful commit. -/
lemma create_multi_url_mem (now : Int) (nextId : Nat) (store st' : List PriceRecord)
    (objs : List PriceCreate)
    (hok : create_multi now nextId store objs = .ok st') :
    ∀ o ∈ objs, o.product_url ∈ st'.map (·.product_url) := by
  obtain ⟨hst, _⟩ := create_multi_ok_dest now nextId store st' objs hok
  subst hst
  intro o ho
  rw [List.map_append, applyUpdates, applyUpdatesAux_map_url, newRows_map_url]
  by_cases hi : urlInStore store o.product_url = true
  · exact List.mem_append.mpr (Or.inl ((urlInStore_iff store _).mp hi))
  · refine List.mem_append.mpr (Or.inr ?_)
    exact List.mem_map.mpr ⟨o, List.mem_filter.mpr ⟨ho, by simp [hi]⟩, rfl⟩

/-! ## C3 -/

/-- **C3** (counterexample) — A batch holding two distinct items with the
same `product_url` does NOT always succeed: when that URL is not already in
the store, `create_multi` stages two inserts for the same unique URL and the
transaction fails with an IntegrityError instead of leaving one
last-write-wins row. -/
theorem create_multi_dup_new_url_fails :
    pcA.product_url = pcB.product_url ∧ pcA ≠ pcB ∧
    create_multi 0 0 [] [pcA, pcB] = .error "IntegrityError" := by
  refine ⟨rfl, by decide, by rfl⟩

/-- **C3** (amended) — For a batch containing items duplicating a
`product_url` that is already present in the store (and whose genuinely new
URLs are pairwise distinct), the call succeeds as one transaction, the
resulting URLs are still unique — so exactly one row carries that URL — and
that row is the existing row updated with the LAST duplicate in batch
order. -/
theorem create_multi_last_write_wins (now : Int) (nextId : Nat)
    (store : List PriceRecord) (objs : List PriceCreate) (u : String) (r : PriceRecord)
    (hnd : (store.map (·.product_url)).Nodup)
    (hnew : ((newRows now nextId store objs).map (·.product_url)).Nodup)
    (hr : r ∈ store) (hu : r.product_url = u)
    (hdup : objs.filter (fun o => o.product_url = u) ≠ []) :
    create_multi now nextId store objs =
      .ok (applyUpdates now store objs ++ newRows now nextId store objs) ∧
    ((applyUpdates now store objs ++ newRows now nextId store objs).map
      (·.product_url)).Nodup ∧
    (applyUpdates now store objs ++ newRows now nextId store objs).find?
        (fun x => x.product_url = u) =
      some (updateFromCreate now
        ((objs.filter (fun o => o.product_url = u)).getLast hdup) r) := by
  have hamap : (applyUpdates now store objs).map (·.product_url) =
      store.map (·.product_url) := by
    rw [applyUpdates]
    exact applyUpdatesAux_map_url now _ objs store
  have hstaged : ((applyUpdates now store objs ++ newRows now nextId store objs).map
      (·.product_url)).Nodup := by
    rw [List.map_append, hamap]
    refine List.Nodup.append hnd hnew ?_
    intro a ha hb
    rw [newRows_map_url] at hb
    obtain ⟨o, hof, hourl⟩ := List.mem_map.mp hb
    have hmf := List.mem_filter.mp hof
    have hnin : ¬ urlInStore store o.product_url = true := by simpa using hmf.2
    refine hnin ((urlInStore_iff _ _).mpr ?_)
    rw [hourl]
    exact ha
  have hpu : urlInStore store u = true :=
    (urlInStore_iff _ _).mpr (List.mem_map.mpr ⟨r, hr, hu⟩)
  have hfind1 : (applyUpdates now store objs).find? (fun x => x.product_url = u) =
      some ((objs.filter fun o => o.product_url = u).foldl
        (fun acc o => updateFromCreate now o acc) r) := by
    rw [applyUpdates]
    exact applyUpdatesAux_find? now (urlInStore store) u hpu objs store r hnd hr hu
  rw [foldl_updateFromCreate now r _ hdup] at hfind1
  have hmem : updateFromCreate now
      ((objs.filter (fun o => o.product_url = u)).getLast hdup) r ∈
      applyUpdates now store objs := List.mem_of_find?_eq_some hfind1
  refine ⟨create_multi_ok_of_nodup _ _ _ _ hstaged, hstaged, ?_⟩
  refine find?_url_of_nodup _ _ u hstaged (List.mem_append.mpr (Or.inl hmem)) ?_
  rw [updateFromCreate_product_url, hu]

/-- Witness for C3 (amended): the store holds the row for `pcA`'s URL; the
batch `[pcA, pcB]` (same URL twice) succeeds and leaves that row with
`pcB`'s fields. -/
theorem create_multi_last_write_wins_witness :
    create_multi 5 7 [freshRecord 0 3 pcA] [pcA, pcB] =
      .ok (applyUpdates 5 [freshRecord 0 3 pcA] [pcA, pcB] ++
        newRows 5 7 [freshRecord 0 3 pcA] [pcA, pcB]) ∧
    ((applyUpdates 5 [freshRecord 0 3 pcA] [pcA, pcB] ++
      newRows 5 7 [freshRecord 0 3 pcA] [pcA, pcB]).map (·.product_url)).Nodup ∧
    (applyUpdates 5 [freshRecord 0 3 pcA] [pcA, pcB] ++
      newRows 5 7 [freshRecord 0 3 pcA] [pcA, pcB]).find?
        (fun x => x.product_url = pcA.product_url) =
      some (updateFromCreate 5
        (([pcA, pcB].filter (fun o => o.product_url = pcA.product_url)).getLast (by decide))
        (freshRecord 0 3 pcA)) :=
  create_multi_last_write_wins 5 7 [freshRecord 0 3 pcA] [pcA, pcB]
    pcA.product_url (freshRecord 0 3 pcA) (by decide) (by decide) (by decide) rfl
    (by decide)

/-! ## C8 -/

/-- **C8** — Upsert is idempotent on the natural key: inserting `item` for a
URL not yet in the store and then upserting `item'` with the same URL leaves
exactly one row for that URL (the staged URLs stay unique), whose `price`,
`source_product_name`, `attributes` come from `item'` and whose `scraped_at`
is the second call's timestamp, while `price_id`, `product_query_term`,
`source_id`, `currency` and `product_url` are unchanged from the first
insert. -/
theorem upsert_idempotent_on_url (store : List PriceRecord) (item item' : PriceCreate)
    (now1 now2 : Int) (id1 nextId2 : Nat)
    (hnd : (store.map (·.product_url)).Nodup)
    (hnew : item.product_url ∉ store.map (·.product_url))
    (hsame : item'.product_url = item.product_url) :
    create_multi now1 id1 store [item] = .ok (store ++ [freshRecord now1 id1 item]) ∧
    create_multi now2 nextId2 (store ++ [freshRecord now1 id1 item]) [item'] =
      .ok (applyUpdates now2 (store ++ [freshRecord now1 id1 item]) [item']) ∧
    (applyUpdates now2 (store ++ [freshRecord now1 id1 item]) [item']).find?
        (fun x => x.product_url = item.product_url) =
      some (updateFromCreate now2 item' (freshRecord now1 id1 item)) ∧
    updateFromCreate now2 item' (freshRecord now1 id1 item) =
      { price_id := id1
        product_query_term := item.product_query_term
        source_id := item.source_id
        source_product_name := item'.source_product_name
        price := item'.price
        currency := item.currency
        product_url := item.product_url
        scraped_at := now2
        attributes := item'.attributes } := by
  have hin : urlInStore store item.product_url = false := by
    cases h : urlInStore store item.product_url
    · rfl
    · exact absurd ((urlInStore_iff _ _).mp h) hnew
  have hA : applyUpdates now1 store [item] = store := by
    rw [applyUpdates, applyUpdatesAux_cons, if_neg (by simp [hin]), applyUpdatesAux_nil]
  have hN : newRows now1 id1 store [item] = [freshRecord now1 id1 item] := by
    rw [newRows, List.filter_cons_of_pos (by simp [hin])]
    rfl
  have hstaged1 : ((applyUpdates now1 store [item] ++ newRows now1 id1 store [item]).map
      (·.product_url)).Nodup := by
    rw [hA, hN, List.map_append]
    refine List.Nodup.append hnd (by simp) ?_
    intro a ha hb
    have hb' : a = item.product_url := by
      simpa [freshRecord_product_url] using hb
    exact hnew (hb' ▸ ha)
  have h1 : create_multi now1 id1 store [item] = .ok (store ++ [freshRecord now1 id1 item]) := by
    have h := create_multi_ok_of_nodup now1 id1 store [item] hstaged1
    rw [hA, hN] at h
    exact h
  have hbignd : ((store ++ [freshRecord now1 id1 item]).map (·.product_url)).Nodup := by
    rw [hA, hN] at hstaged1
    exact hstaged1
  have hfreshmem : freshRecord now1 id1 item ∈ store ++ [freshRecord now1 id1 item] :=
    List.mem_append.mpr (Or.inr (by simp))
  have hpu : urlInStore (store ++ [freshRecord now1 id1 item]) item.product_url = true :=
    (urlInStore_iff _ _).mpr
      (List.mem_map.mpr ⟨freshRecord now1 id1 item, hfreshmem, rfl⟩)
  have hin2 : urlInStore (store ++ [freshRecord now1 id1 item]) item'.product_url = true := by
    rw [hsame]
    exact hpu
  have hN2 : newRows now2 nextId2 (store ++ [freshRecord now1 id1 item]) [item'] = [] := by
    rw [newRows, List.filter_cons_of_neg (by simp [hin2])]
    rfl
  have hstaged2 : ((applyUpdates now2 (store ++ [freshRecord now1 id1 item]) [item'] ++
      newRows now2 nextId2 (store ++ [freshRecord now1 id1 item]) [item']).map
        (·.product_url)).Nodup := by
    rw [hN2, List.append_nil, applyUpdates, applyUpdatesAux_map_url]
    exact hbignd
  have h2 : create_multi now2 nextId2 (store ++ [freshRecord now1 id1 item]) [item'] =
      .ok (applyUpdates now2 (store ++ [freshRecord now1 id1 item]) [item']) := by
    have h := create_multi_ok_of_nodup now2 nextId2 (store ++ [freshRecord now1 id1 item])
      [item'] hstaged2
    rw [hN2, List.append_nil] at h
    exact h
  have h3 : (applyUpdates now2 (store ++ [freshRecord now1 id1 item]) [item']).find?
      (fun x => x.product_url = item.product_url) =
      some (updateFromCreate now2 item' (freshRecord now1 id1 item)) := by
    rw [applyUpdates]
    have h := applyUpdatesAux_find? now2 (urlInStore (store ++ [freshRecord now1 id1 item]))
      item.product_url hpu [item'] (store ++ [freshRecord now1 id1 item])
      (freshRecord now1 id1 item) hbignd hfreshmem rfl
    rw [List.filter_cons_of_pos (by simp [hsame]), List.filter_nil] at h
    exact h
  exact ⟨h1, h2, h3, rfl⟩

/-- Witness for C8: insert `pcA` into an empty store, then upsert `pcB`
(same URL): one row remains, with `pcB`'s price, name and attributes, the
second timestamp, and `pcA`'s source, query term and currency. -/
theorem upsert_idempotent_on_url_witness :
    create_multi 0 3 [] [pcA] = .ok ([] ++ [freshRecord 0 3 pcA]) ∧
    create_multi 9 4 ([] ++ [freshRecord 0 3 pcA]) [pcB] =
      .ok (applyUpdates 9 ([] ++ [freshRecord 0 3 pcA]) [pcB]) ∧
    (applyUpdates 9 ([] ++ [freshRecord 0 3 pcA]) [pcB]).find?
        (fun x => x.product_url = pcA.product_url) =
      some (updateFromCreate 9 pcB (freshRecord 0 3 pcA)) ∧
    updateFromCreate 9 pcB (freshRecord 0 3 pcA) =
      { price_id := 3
        product_query_term := pcA.product_query_term
        source_id := pcA.source_id
        source_product_name := pcB.source_product_name
        price := pcB.price
        currency := pcA.currency
        product_url := pcA.product_url
        scraped_at := 9
        attributes := pcB.attributes } :=
  upsert_idempotent_on_url [] pcA pcB 0 9 3 4 (by decide) (by decide) rfl

/-! ## C2 -/

/-- **C2** (counterexample) — Transport failure does NOT make an adapter
invocation raise: with adapter A succeeding (one item) and adapter B hitting
a timeout, `scrape` for B returns an empty OK list, and the job ends
COMPLETED — not FAILED as the claim asserts for a transport failure while
others succeed. -/
theorem transport_failure_completes_job :
    (scrape (.ok "https://b.example/search") .timeout (fun _ => [sd0])).map
        (run_scraper_task "shoes" 2) = .ok [] ∧
    (perform_scraping 0 10 1 ["A", "B"]
        [(scrape (.ok "https://a.example/search") (.okResp "html") (fun _ => [sd0])).map
            (run_scraper_task "shoes" 1),
          (scrape (.ok "https://b.example/search") .timeout (fun _ => [sd0])).map
            (run_scraper_task "shoes" 2)]
        [jobShoes] []).1 =
      [{ jobShoes with
          status := .completed
          started_at := some 0
          completed_at := some 0 }] := by
  refine ⟨rfl, by rfl⟩

/-- **C2** (amended) — In a background refresh over a non-empty source list,
when the upsert of the successfully scraped items commits: the final store
is the committed one (so every success item's URL is present — partial
results are retained), each adapter invocation that raised contributes an
error entry naming its source, and the PENDING job ends FAILED with the
"; "-concatenation of those entries when at least one invocation raised,
COMPLETED when none did. (Transport failures are swallowed inside `scrape`
and count as empty successes, not as raised errors.) -/
theorem partial_failure_persists_and_fails (now : Int) (nextId : Nat) (job_id : Nat)
    (sources : List String) (outcomes : List (Except String (List PriceCreate)))
    (jobs : List JobRecord) (store st' : List PriceRecord)
    (hsrc : sources.isEmpty = false)
    (hok : create_multi now nextId store (scrapedPrices outcomes) = .ok st') :
    ((perform_scraping now nextId job_id sources outcomes jobs store).2 =
      if (scrapedPrices outcomes).isEmpty then store else st') ∧
    (∀ o ∈ scrapedPrices outcomes,
      o.product_url ∈
        (perform_scraping now nextId job_id sources outcomes jobs store).2.map
          (·.product_url)) ∧
    (scrapeErrors sources outcomes ≠ [] →
      ∀ k ∈ jobs, k.job_id = job_id → k.status = .pending →
        { k with
          status := .failed
          started_at := some now
          completed_at := some now
          error_message :=
            some (String.intercalate "; " (scrapeErrors sources outcomes)) } ∈
          (perform_scraping now nextId job_id sources outcomes jobs store).1) ∧
    (∀ p ∈ sources.zip outcomes, ∀ e, p.2 = .error e →
      ("Error en scraper " ++ p.1 ++ ": " ++ e) ∈ scrapeErrors sources outcomes) ∧
    (scrapeErrors sources outcomes = [] →
      ∀ k ∈ jobs, k.job_id = job_id → k.status = .pending →
        { k with
          status := .completed
          started_at := some now
          completed_at := some now } ∈
          (perform_scraping now nextId job_id sources outcomes jobs store).1) := by
  have hup1 : (performUpsert now nextId store (scrapedPrices outcomes)).1 =
      if (scrapedPrices outcomes).isEmpty then store else st' := by
    unfold performUpsert
    by_cases hP : (scrapedPrices outcomes).isEmpty
    · rw [if_pos hP, if_pos hP]
    · rw [if_neg hP, if_neg hP, hok]
  have hup2 : (performUpsert now nextId store (scrapedPrices outcomes)).2 = [] := by
    unfold performUpsert
    by_cases hP : (scrapedPrices outcomes).isEmpty
    · rw [if_pos hP]
    · rw [if_neg hP, hok]
  refine ⟨?_, ?_, ?_, ?_, ?_⟩
  · unfold perform_scraping
    rw [hsrc]
    by_cases hE : (scrapeErrors sources outcomes ++
        (performUpsert now nextId store (scrapedPrices outcomes)).2).isEmpty
    · simp only [Bool.false_eq_true, if_false, if_pos hE]
      exact hup1
    · simp only [Bool.false_eq_true, if_false, if_neg hE]
      exact hup1
  · intro o ho
    have hmem := create_multi_url_mem now nextId store st' (scrapedPrices outcomes) hok o ho
    have hPne : (scrapedPrices outcomes).isEmpty = false := by
      cases hP : (scrapedPrices outcomes).isEmpty
      · rfl
      · rw [List.isEmpty_iff.mp hP] at ho
        cases ho
    have h2 : (perform_scraping now nextId job_id sources outcomes jobs store).2 = st' := by
      unfold perform_scraping
      rw [hsrc]
      by_cases hE : (scrapeErrors sources outcomes ++
          (performUpsert now nextId store (scrapedPrices outcomes)).2).isEmpty
      · simp only [Bool.false_eq_true, if_false, if_pos hE]
        rw [hup1, hPne]
        rfl
      · simp only [Bool.false_eq_true, if_false, if_neg hE]
        rw [hup1, hPne]
        rfl
    rw [h2]
    exact hmem
  · intro hE k hk hid hpend
    have hEne : (scrapeErrors sources outcomes ++
        (performUpsert now nextId store (scrapedPrices outcomes)).2).isEmpty = false := by
      rw [hup2, List.append_nil]
      cases hE' : (scrapeErrors sources outcomes).isEmpty
      · rfl
      · exact absurd (List.isEmpty_iff.mp hE') hE
    unfold perform_scraping
    rw [hsrc]
    simp only [Bool.false_eq_true, if_false, hEne]
    rw [hup2, List.append_nil]
    rw [markAsRunning, markAsFailed, List.map_map]
    have hfk : ((fun j => if j.job_id = job_id then
          markFailedRec now (String.intercalate "; " (scrapeErrors sources outcomes)) j
        else j) ∘ fun j => if j.job_id = job_id then markRunningRec now j else j) k =
        { k with
          status := .failed
          started_at := some now
          completed_at := some now
          error_message :=
            some (String.intercalate "; " (scrapeErrors sources outcomes)) } := by
      simp only [Function.comp, if_pos hid, markRunningRec, if_pos hpend]
      simp [markFailedRec, hid]
    rw [← hfk]
    exact List.mem_map_of_mem _ hk
  · intro p hp e he
    unfold scrapeErrors
    refine List.mem_filterMap.mpr ⟨p, hp, ?_⟩
    rw [he]
  · intro hE k hk hid hpend
    have hEe : (scrapeErrors sources outcomes ++
        (performUpsert now nextId store (scrapedPrices outcomes)).2).isEmpty = true := by
      rw [hup2, List.append_nil, hE]
      rfl
    unfold perform_scraping
    rw [hsrc]
    simp only [Bool.false_eq_true, if_false, hEe, if_true]
    rw [markAsRunning, markAsCompleted, List.map_map]
    have hfk : ((fun j => if j.job_id = job_id then markCompletedRec now j else j) ∘
        fun j => if j.job_id = job_id then markRunningRec now j else j) k =
        { k with
          status := .completed
          started_at := some now
          completed_at := some now } := by
      simp only [Function.comp, if_pos hid, markRunningRec, if_pos hpend]
      simp [markCompletedRec, hid]
    rw [← hfk]
    exact List.mem_map_of_mem _ hk

/-- Witness for C2 (amended): source A succeeds with `pcA`, source B's
invocation raises `TypeError`; the item is persisted and the PENDING job
ends FAILED with the summary naming B. -/
theorem partial_failure_persists_and_fails_witness :
    { jobShoes with
      status := .failed
      started_at := some 0
      completed_at := some 0
      error_message :=
        some (String.intercalate "; "
          (scrapeErrors ["A", "B"] [.ok [pcA], .error "TypeError"])) } ∈
      (perform_scraping 0 10 jobShoes.job_id ["A", "B"]
        [.ok [pcA], .error "TypeError"] [jobShoes] []).1 :=
  (partial_failure_persists_and_fails 0 10 jobShoes.job_id ["A", "B"]
      [.ok [pcA], .error "TypeError"] [jobShoes] [] [freshRecord 0 10 pcA]
      (by decide) (by rfl)).2.2.1 (by decide) jobShoes (by decide) rfl rfl

end Comparador
